import Mathlib

/-!
Verification of the output-normalization layer of the napalm-cumulus driver
(src/napalm_cumulus/cumulus.py).

Conventions of the shallow embedding:
* Python strings are Lean `String`s; `str.split()` and friends are embedded
  one-to-one below (`pySplit`, `pySplitlines`, ...).
* Python `float` values produced by these parsers are finitely-representable
  decimals; they are modeled exactly as `Rat`.
* A Python function that can raise an uncaught exception (IndexError,
  TypeError, ValueError, KeyError) is embedded as an `Option`-returning
  function, `none` meaning the call raises (or, where noted, returns `None`).
* Machine integers are unbounded in Python, so `Int`/`Nat` are used directly.
-/

/-! ## Python string primitives -/

/-- Occurrence test for a character-list pattern inside a character list. -/
def listContainsSub (sub : List Char) : List Char → Bool
  | [] => sub.isEmpty
  | c :: rest => sub.isPrefixOf (c :: rest) || listContainsSub sub rest

/-- Embeds Python `sub in s` (substring containment). -/
def strContains (s sub : String) : Bool :=
  listContainsSub sub.data s.data

/-- Tokenizer for Python `s.split()`: maximal runs of non-whitespace
characters; `acc` holds the current token reversed. -/
def wsTokensGo : List Char → List Char → List (List Char)
  | [], acc => if acc.isEmpty then [] else [acc.reverse]
  | c :: rest, acc =>
      if c.isWhitespace then
        if acc.isEmpty then wsTokensGo rest []
        else acc.reverse :: wsTokensGo rest []
      else wsTokensGo rest (c :: acc)

/-- Embeds Python `s.split()`: split on whitespace runs, dropping empty pieces. -/
def pySplit (s : String) : List String :=
  (wsTokensGo s.data []).map String.mk

/-- Splitter for Python `s.split(sep)` with a one-character separator:
keeps empty pieces; `acc` holds the current piece reversed. -/
def splitOnCharGo (sep : Char) : List Char → List Char → List (List Char)
  | [], acc => [acc.reverse]
  | c :: rest, acc =>
      if c == sep then acc.reverse :: splitOnCharGo sep rest []
      else splitOnCharGo sep rest (c :: acc)

def splitOnChar (sep : Char) (l : List Char) : List (List Char) :=
  splitOnCharGo sep l []

/-- Embeds Python `s.split("\n")`. -/
def pySplitNl (s : String) : List String :=
  (splitOnChar '\n' s.data).map String.mk

/-- Embeds Python `s.splitlines()` for newline-separated text: like
`s.split("\n")` but without the final empty piece produced by a trailing
newline, and `[]` on the empty string. -/
def pySplitlines (s : String) : List String :=
  if s.data.isEmpty then []
  else if s.data.getLast? == some '\n' then
    ((splitOnChar '\n' s.data).map String.mk).dropLast
  else (splitOnChar '\n' s.data).map String.mk

/-- Embeds Python `s.endswith(c)` for a single-character suffix `c`. -/
def pyEndsWithChar (s : String) (c : Char) : Bool :=
  match s.data.getLast? with
  | some c' => c' == c
  | none => false

/-- Embeds Python `s.strip(c)` for a single strip character `c`: remove every
leading and trailing occurrence of `c`. -/
def pyStripChar (s : String) (c : Char) : String :=
  String.mk (((s.data.dropWhile (fun a => a == c)).reverse.dropWhile
      (fun a => a == c)).reverse)

/-- Embeds Python `s.strip()` (whitespace strip). -/
def pyStripWs (s : String) : String :=
  String.mk (((s.data.dropWhile Char.isWhitespace).reverse.dropWhile
      Char.isWhitespace).reverse)

/-- Numeric value of a list of decimal digit characters. -/
def digitsVal (l : List Char) : Nat :=
  l.foldl (fun a c => a * 10 + (c.toNat - 48)) 0

/-- Numeric value of a decimal digit string. -/
def digitsToNat (s : String) : Nat :=
  digitsVal s.data

/-- Embeds Python `s.isdigit()` for ASCII text: non-empty and all digits. -/
def pyIsDigitStr (s : String) : Bool :=
  !s.data.isEmpty && s.data.all Char.isDigit

/-- Embeds Python `int(s)` on a string: optional sign, then digits;
`none` models `ValueError`. -/
def pyInt (s : String) : Option Int :=
  match (pyStripWs s).data with
  | '-' :: rest =>
      if !rest.isEmpty && rest.all Char.isDigit then some (-(digitsVal rest : Int))
      else none
  | '+' :: rest =>
      if !rest.isEmpty && rest.all Char.isDigit then some (digitsVal rest : Int)
      else none
  | l =>
      if !l.isEmpty && l.all Char.isDigit then some (digitsVal l : Int)
      else none

/-- Embeds Python `l[-k]` (negative indexing): `none` models `IndexError`. -/
def pyGetNeg {α : Type} (l : List α) (k : Nat) : Option α :=
  if k ≤ l.length then l[l.length - k]? else none

/-! ## Speed conversion (`_convert_speed`, cumulus.py lines 380-385)

Source:
```
def _convert_speed(speed):
    if speed.endswith("M") and speed.strip("M").isdigit():
        return int(speed.strip("M"))
    elif speed.endswith("G") and speed.strip("G").isdigit():
        return int(speed.strip("G")) * 1000
    return -1
```
-/

def _convert_speed (speed : String) : Int :=
  if pyEndsWithChar speed 'M' && pyIsDigitStr (pyStripChar speed 'M') then
    (digitsToNat (pyStripChar speed 'M') : Int)
  else if pyEndsWithChar speed 'G' && pyIsDigitStr (pyStripChar speed 'G') then
    (digitsToNat (pyStripChar speed 'G') : Int) * 1000
  else -1

/-- Spec-side shape: the claim's literal reading of a speed string of the
form `<int>M` — decimal digits followed by a single final `M`. -/
def specFormIntM (s : String) : Bool :=
  pyEndsWithChar s 'M' && pyIsDigitStr (String.mk s.data.dropLast)

/-- Spec-side shape: decimal digits followed by a single final `G`. -/
def specFormIntG (s : String) : Bool :=
  pyEndsWithChar s 'G' && pyIsDigitStr (String.mk s.data.dropLast)

/-! ## ARP table (`get_arp_table`, cumulus.py lines 180-209) -/

structure ArpEntry where
  interface : String
  mac : String
  ip : String
  age : Rat
deriving Repr, DecidableEq

/-- Embeds the body of the per-line loop of `get_arp_table` (lines 199-208):
`line = line.split()`; `line[1]` raises IndexError on fewer than two tokens;
`line[2]` raises IndexError when the "incomplete" branch is not taken and
there are only two tokens. -/
def arpFromTokens : List String → Option ArpEntry
  | t0 :: t1 :: rest =>
      if strContains t1 "incomplete" then
        some { interface := (t0 :: t1 :: rest).getLastD "", mac := "00:00:00:00:00:00",
               ip := t0, age := 0 }
      else
        match rest with
        | t2 :: _ =>
            some { interface := (t0 :: t1 :: rest).getLastD "", mac := t2,
                   ip := t0, age := 0 }
        | [] => none
  | _ => none

/-- Embeds one iteration of the `get_arp_table` loop on a raw line. -/
def parseArpLine (line : String) : Option ArpEntry :=
  arpFromTokens (pySplit line)

/-- Embeds `get_arp_table` on the raw `arp -n` output (lines 194-209): drop
the header line, parse every remaining line; an IndexError anywhere aborts
the whole call (`none`), no partial table is returned. -/
def get_arp_table (output : String) : Option (List ArpEntry) :=
  ((pySplitNl output).drop 1).mapM parseArpLine

/-! ## BGP neighbors (`get_bgp_neighbors`, cumulus.py lines 506-571) -/

/-- Embeds Python 3 `int(u / 1000)`: true division by 1000 followed by
truncation toward zero (`Int.tdiv`). -/
def pyIntDiv1000 (u : Int) : Int :=
  Int.tdiv u 1000

/-- Embeds the per-peer uptime computation of `get_bgp_neighbors`
(lines 525-538): `uptime = peer.get("bgpTimerUpMsec", "")` (`none` models the
`""` default), `uptime = -1` when `bgpState` is not `"Established"`, and
finally `uptime = int(uptime / 1000)`; `none` models the `TypeError` raised
when the `""` default reaches the division. -/
def bgp_neighbor_uptime (bgpState : String) (bgpTimerUpMsec : Option Int) :
    Option Int :=
  let uptime : Option Int :=
    if bgpState == "Established" then bgpTimerUpMsec else some (-1)
  uptime.map pyIntDiv1000

/-- Embeds the per-address-family prefix-counter computation of
`get_bgp_neighbors` (lines 532-567): `is_enabled = not adminShutDown`; when
not enabled the received, advertised (sent) and accepted counters are all
overwritten with -1 before being copied into the route_info record. The
triple is (received_prefixes, sent_prefixes, accepted_prefixes). -/
def bgp_route_counts (adminShutDown : Bool)
    (prefixReceivedCount totalPrefixCounter acceptedPrefixCounter : Int) :
    Int × Int × Int :=
  let is_enabled := !adminShutDown
  let received := if !is_enabled then -1 else prefixReceivedCount
  let advertised := if !is_enabled then -1 else totalPrefixCounter
  let accepted := if !is_enabled then -1 else acceptedPrefixCounter
  (received, advertised, accepted)

/-! ## JSON loading and the first-parse-retry pattern

`get_facts` (lines 167-177), `get_lldp_neighbors` (lines 367-370),
`get_interfaces` (lines 391-396) and `get_interfaces_ip` (lines 469-474) all
wrap their first `json.loads` in `try/except ValueError` and, on failure,
re-issue the identical command once through `self.device.send_command` (the
raw channel) and parse once more. `get_bgp_neighbors` (lines 511-514) and
`get_environment` (lines 689-690) call `json.loads` directly with no
`try/except` at all.

`json.loads` is embedded as a JSON parser over the raw string; `none` models
`ValueError`. -/

inductive JValue where
  | null : JValue
  | bool : Bool → JValue
  | num : Rat → JValue
  | str : String → JValue
  | arr : List JValue → JValue
  | obj : List (String × JValue) → JValue

def jsonWs (c : Char) : Bool :=
  c == ' ' || c == '\n' || c == '\t' || c == '\r'

def skipWs (cs : List Char) : List Char :=
  cs.dropWhile jsonWs

/-- Parses the remainder of a JSON string literal (opening quote already
consumed); escape sequences are kept verbatim. -/
def parseStringLit : List Char → Option (String × List Char)
  | [] => none
  | '"' :: rest => some ("", rest)
  | '\\' :: c :: rest =>
      match parseStringLit rest with
      | some (s, r) => some (String.mk ['\\', c] ++ s, r)
      | none => none
  | c :: rest =>
      match parseStringLit rest with
      | some (s, r) => some (String.singleton c ++ s, r)
      | none => none

/-- Parses a JSON number (optional minus, digits, optional fraction). -/
def parseJsonNumber (cs : List Char) : Option (Rat × List Char) :=
  let (neg, cs1) :=
    match cs with
    | '-' :: rest => (true, rest)
    | _ => (false, cs)
  let ds := cs1.takeWhile Char.isDigit
  let cs2 := cs1.dropWhile Char.isDigit
  if ds.isEmpty then none
  else
    let ip : Rat := (digitsVal ds : Nat)
    match cs2 with
    | '.' :: cs3 =>
        let fs := cs3.takeWhile Char.isDigit
        let cs4 := cs3.dropWhile Char.isDigit
        if fs.isEmpty then none
        else
          let v : Rat := ip + (digitsVal fs : Rat) / ((10 : Rat) ^ fs.length)
          some (if neg then -v else v, cs4)
    | _ => some (if neg then -ip else ip, cs2)

mutual

def parseJsonValue : Nat → List Char → Option (JValue × List Char)
  | 0, _ => none
  | fuel + 1, cs =>
    match skipWs cs with
    | 'n' :: 'u' :: 'l' :: 'l' :: rest => some (JValue.null, rest)
    | 't' :: 'r' :: 'u' :: 'e' :: rest => some (JValue.bool true, rest)
    | 'f' :: 'a' :: 'l' :: 's' :: 'e' :: rest => some (JValue.bool false, rest)
    | '"' :: rest =>
        match parseStringLit rest with
        | some (s, r) => some (JValue.str s, r)
        | none => none
    | '[' :: rest =>
        match skipWs rest with
        | ']' :: r2 => some (JValue.arr [], r2)
        | cs2 => parseJsonElems fuel [] cs2
    | '\x7b' :: rest =>
        match skipWs rest with
        | '\x7d' :: r2 => some (JValue.obj [], r2)
        | cs2 => parseJsonMembers fuel [] cs2
    | c :: rest =>
        if c == '-' || c.isDigit then
          match parseJsonNumber (c :: rest) with
          | some (v, r) => some (JValue.num v, r)
          | none => none
        else none
    | [] => none

def parseJsonElems : Nat → List JValue → List Char → Option (JValue × List Char)
  | 0, _, _ => none
  | fuel + 1, acc, cs =>
    match parseJsonValue fuel cs with
    | none => none
    | some (v, r) =>
      match skipWs r with
      | ',' :: rest => parseJsonElems fuel (acc ++ [v]) (skipWs rest)
      | ']' :: rest => some (JValue.arr (acc ++ [v]), rest)
      | _ => none

def parseJsonMembers : Nat → List (String × JValue) → List Char →
    Option (JValue × List Char)
  | 0, _, _ => none
  | fuel + 1, acc, cs =>
    match skipWs cs with
    | '"' :: rest =>
      match parseStringLit rest with
      | none => none
      | some (k, r) =>
        match skipWs r with
        | ':' :: r2 =>
          match parseJsonValue fuel (skipWs r2) with
          | none => none
          | some (v, r3) =>
            match skipWs r3 with
            | ',' :: r4 => parseJsonMembers fuel (acc ++ [(k, v)]) r4
            | '\x7d' :: r4 => some (JValue.obj (acc ++ [(k, v)]), r4)
            | _ => none
        | _ => none
    | _ => none

end

/-- Embeds `json.loads`: parse one JSON value, require only whitespace after
it; `none` models `ValueError`. -/
def json_loads (s : String) : Option JValue :=
  match parseJsonValue (2 * s.data.length + 2) s.data with
  | some (v, rest) => if (skipWs rest).isEmpty then some v else none
  | none => none

/-- Outcome of a fetch-and-parse stage: the parsed value (`none` when the
parse failure propagates to the caller) and how many times the command was
issued on the device. -/
structure FetchResult (J : Type) where
  value : Option J
  commandsIssued : Nat

/-- Embeds the retrying fetch pattern of `get_facts` lines 168-175 (also
`get_lldp_neighbors`, `get_interfaces`, `get_interfaces_ip`): parse the first
response; on `ValueError` re-issue the identical command once through the raw
channel and parse the second response. `channel n` is the device response to
the (n+1)-th issue of the command. -/
def fetchJsonWithRetry {J : Type} (loads : String → Option J)
    (channel : Nat → String) : FetchResult J :=
  match loads (channel 0) with
  | some v => ⟨some v, 1⟩
  | none => ⟨loads (channel 1), 2⟩

/-- Embeds the non-retrying fetch of `get_bgp_neighbors` lines 511-514 (and
`get_environment` lines 689-690): `json.loads` is applied to the single
response with no `try/except`, so a parse failure propagates after one
command issue. -/
def fetchJsonNoRetry {J : Type} (loads : String → Option J)
    (channel : Nat → String) : FetchResult J :=
  ⟨loads (channel 0), 1⟩

/-- Scripted channel for a garbled first read: the first response is a
truncated JSON document (the known transport quirk), the re-read is the
complete document. -/
def garbledChannel : Nat → String := fun n =>
  if n == 0 then "\x7b\"ipv4 unicast\": \x7b\"routerId\": \"10.0.0.1\""
  else "\x7b\"ipv4 unicast\": \x7b\"routerId\": \"10.0.0.1\"\x7d\x7d"

/-! ## Ping (`ping`, cumulus.py lines 256-351)

The method builds `ping_result = dict()`, sets `ping_result["error"]` when
the raw output contains `"Unknown host"`, and otherwise fills
`ping_result["success"]`. The only `return ping_result` statement (line 351)
is inside the `else` (success) branch, so on the error path the method falls
off its end and returns Python `None`. -/

structure PingResponse where
  ip_address : String
  rtt : Rat
deriving Repr, DecidableEq

structure PingSuccess where
  probes_sent : Int
  packet_loss : Int
  rtt_min : Option Rat
  rtt_max : Option Rat
  rtt_avg : Option Rat
  rtt_stddev : Option Rat
  results : List PingResponse
deriving Repr, DecidableEq

/-- Python dict with optional "error" / "success" keys; a missing key is a
`none` field. -/
structure PingRecord where
  error : Option String
  success : Option PingSuccess
deriving Repr, DecidableEq

def isDigitDot (c : Char) : Bool :=
  c.isDigit || c == '.'

/-- Embeds Python `float(s)` for a token drawn from the character class
`[\d.]`: digits with at most one dot; `none` models `ValueError`. -/
def pyFloat (s : String) : Option Rat :=
  match splitOnChar '.' s.data with
  | [i] => if !i.isEmpty && i.all Char.isDigit then some ((digitsVal i : Nat) : Rat)
           else none
  | [i, f] =>
      if (i ++ f).all Char.isDigit && !(i ++ f).isEmpty then
        some ((digitsVal i : Rat) + (digitsVal f : Rat) / ((10 : Rat) ^ f.length))
      else none
  | _ => none

/-- Matcher for the pattern of four slash-separated `[\d.]+` groups at the
head of the character list (the rtt min/avg/max/stddev pattern of line 313).
The class excludes the slash, so each greedy group is the maximal digit-dot
run. -/
def matchSlash4At (cs : List Char) : Option (String × String × String × String) :=
  let r1 := cs.takeWhile isDigitDot
  match cs.dropWhile isDigitDot with
  | '/' :: cs1 =>
    let r2 := cs1.takeWhile isDigitDot
    match cs1.dropWhile isDigitDot with
    | '/' :: cs2 =>
      let r3 := cs2.takeWhile isDigitDot
      match cs2.dropWhile isDigitDot with
      | '/' :: cs3 =>
        let r4 := cs3.takeWhile isDigitDot
        if r1.isEmpty || r2.isEmpty || r3.isEmpty || r4.isEmpty then none
        else some (String.mk r1, String.mk r2, String.mk r3, String.mk r4)
      | _ => none
    | _ => none
  | _ => none

/-- Embeds `re.search` for the four-group rtt pattern: leftmost position at
which the pattern matches. -/
def searchSlash4Go : List Char → Option (String × String × String × String)
  | [] => none
  | c :: rest =>
    match matchSlash4At (c :: rest) with
    | some r => some r
    | none => searchSlash4Go rest

def searchSlash4 (s : String) : Option (String × String × String × String) :=
  searchSlash4Go s.data

/-- Scans for the last occurrence of `time=` followed by a non-empty `[\d.]+`
run — the effect of the greedy `.*` in `from\s([\d\.]+).*time=([\d\.]+)`. -/
def lastTimeRunGo : List Char → Option (List Char) → Option (List Char)
  | [], acc => acc
  | c :: rest, acc =>
    if List.isPrefixOf ['t', 'i', 'm', 'e', '='] (c :: rest) then
      let run := ((c :: rest).drop 5).takeWhile isDigitDot
      if run.isEmpty then lastTimeRunGo rest acc else lastTimeRunGo rest (some run)
    else lastTimeRunGo rest acc

/-- Matcher for `from\s([\d\.]+).*time=([\d\.]+)` anchored at the head of the
character list. -/
def matchFromTimeAt (cs : List Char) : Option (String × String) :=
  match cs with
  | 'f' :: 'r' :: 'o' :: 'm' :: w :: rest =>
    if w.isWhitespace then
      let ip := rest.takeWhile isDigitDot
      if ip.isEmpty then none
      else
        match lastTimeRunGo (rest.dropWhile isDigitDot) none with
        | some run => some (String.mk ip, String.mk run)
        | none => none
    else none
  | _ => none

/-- Embeds `re.search` for the per-probe response pattern (line 330). -/
def searchFromTimeGo : List Char → Option (String × String)
  | [] => none
  | c :: rest =>
    match matchFromTimeAt (c :: rest) with
    | some r => some r
    | none => searchFromTimeGo rest

def searchFromTime (s : String) : Option (String × String) :=
  searchFromTimeGo s.data

/-- Embeds the response-collection loop (lines 326-337); a `float` failure on
a matched group aborts the call. -/
def pingResponses (lines : List String) : Option (List PingResponse) :=
  lines.foldlM (fun acc l =>
    match searchFromTime l with
    | none => some acc
    | some (ip, rs) =>
        match pyFloat rs with
        | none => none
        | some r => some (acc ++ [{ ip_address := ip, rtt := r }])) []

/-- Embeds the success branch of `ping` (lines 287-351). `none` models an
uncaught exception (IndexError on short output, ValueError from `int`/`float`). -/
def ping_success (output_ping : String) : Option PingRecord := do
  let lines := pySplitNl output_ping
  let l2 ← pyGetNeg lines 2
  let packet_line ← if strContains l2 "transmitted" then some l2 else pyGetNeg lines 3
  let toks := pySplit packet_line
  let t0 ← toks[0]?
  let t3 ← toks[3]?
  let sent ← pyInt t0
  let received ← pyInt t3
  let lost := sent - received
  let lastLine ← pyGetNeg lines 1
  let rtt_line ← if lastLine.length > 0 then some lastLine else pyGetNeg lines 2
  let rtts ←
    (match searchSlash4 rtt_line with
     | some (a, b, c, d) =>
         (pyFloat a).bind fun a' => (pyFloat b).bind fun b' =>
           (pyFloat c).bind fun c' => (pyFloat d).map fun d' =>
             some (a', b', c', d')
     | none => some none)
  let results ← pingResponses lines
  pure { error := none,
         success := some {
           probes_sent := sent
           packet_loss := lost
           rtt_min := rtts.map (fun r => r.1)
           rtt_max := rtts.map (fun r => r.2.2.1)
           rtt_avg := rtts.map (fun r => r.2.1)
           rtt_stddev := rtts.map (fun r => r.2.2.2)
           results := results } }

/-- Embeds `ping`'s result as a function of the raw probe output
(lines 277-351). On the `"Unknown host"` path the method sets
`ping_result["error"]` but the sole return statement is inside the success
branch, so the call returns Python `None`: modeled as `none`. -/
def ping_parse (output_ping : String) : Option PingRecord :=
  if strContains output_ping "Unknown host" then none
  else ping_success output_ping

/-! ## Interface flap time (`get_interfaces`, cumulus.py lines 397-461)

The reference time comes from a `date '+%Y/%m/%d %H:%M:%S'` command parsed
with `datetime.strptime`; the per-block timestamps use format
`%Y/%m/%d %H:%M:%S.%f`. Datetimes are modeled as microseconds since
1970-01-01 (proleptic Gregorian), so `datetime(1970, 1, 1)` is `0`. -/

/-- Days from 1970-01-01 of a proleptic-Gregorian civil date (floor-division
form of the standard civil-from-days inverse). -/
def daysFromCivil (y m d : Int) : Int :=
  let y1 := if m ≤ 2 then y - 1 else y
  let era := Int.fdiv y1 400
  let yoe := y1 - era * 400
  let mp := Int.fmod (m + 9) 12
  let doy := Int.fdiv (153 * mp + 2) 5 + d - 1
  let doe := yoe * 365 + Int.fdiv yoe 4 - Int.fdiv yoe 100 + doy
  era * 146097 + doe - 719468

/-- Non-empty all-digit character run. -/
def isDigits (l : List Char) : Bool :=
  !l.isEmpty && l.all Char.isDigit

/-- Parses the `%Y/%m/%d` date part; `none` models `ValueError`. -/
def strptimeDate (l : List Char) : Option Int :=
  match splitOnChar '/' l with
  | [ys, ms, ds] =>
      if isDigits ys && isDigits ms && isDigits ds then
        let m := digitsVal ms
        let d := digitsVal ds
        if 1 ≤ m ∧ m ≤ 12 ∧ 1 ≤ d ∧ d ≤ 31 then
          some (daysFromCivil (digitsVal ys : Int) (m : Int) (d : Int))
        else none
      else none
  | _ => none

/-- Parses the `%H:%M:%S` time part to seconds in the day. -/
def strptimeHMS (l : List Char) : Option Int :=
  match splitOnChar ':' l with
  | [hs, ms, ss] =>
      if isDigits hs && isDigits ms && isDigits ss then
        let h := digitsVal hs
        let m := digitsVal ms
        let sec := digitsVal ss
        if h ≤ 23 ∧ m ≤ 59 ∧ sec ≤ 61 then
          some ((h : Int) * 3600 + (m : Int) * 60 + (sec : Int))
        else none
      else none
  | _ => none

/-- Parses `%H:%M:%S.%f` to microseconds in the day (`%f` is 1-6 digits,
scaled to microseconds). -/
def strptimeHMSF (l : List Char) : Option Int :=
  match splitOnChar '.' l with
  | [hms, fs] =>
      match strptimeHMS hms with
      | some secs =>
          if isDigits fs ∧ fs.length ≤ 6 then
            some (secs * 1000000 + (digitsVal fs * 10 ^ (6 - fs.length) : Nat))
          else none
      | none => none
  | _ => none

/-- Embeds `datetime.strptime(ts, "%Y/%m/%d %H:%M:%S.%f")` as microseconds
since epoch. -/
def strptimeFlapTs (s : String) : Option Int :=
  match splitOnChar ' ' s.data with
  | [ds, ts] =>
      match strptimeDate ds, strptimeHMSF ts with
      | some days, some micros => some (days * 86400000000 + micros)
      | _, _ => none
  | _ => none

/-- Embeds `datetime.strptime(s, "%Y/%m/%d %H:%M:%S")` (the reference-time
format of lines 398-400) as microseconds since epoch. -/
def strptimeCurrent (s : String) : Option Int :=
  match splitOnChar ' ' s.data with
  | [ds, ts] =>
      match strptimeDate ds, strptimeHMS ts with
      | some days, some secs => some (days * 86400000000 + secs * 1000000)
      | _, _ => none
  | _ => none

/-- Embeds `timedelta.seconds` of a (possibly negative) microsecond delta:
Python normalizes a timedelta so that `0 <= seconds < 86400` (days absorb the
rest, with floor semantics), and `.seconds` drops both days and microseconds. -/
def pyTimedeltaSeconds (deltaMicro : Int) : Int :=
  (deltaMicro.emod 86400000000).ediv 1000000

/-- Space-join of a list of strings (Python `" ".join`). -/
def joinSpace : List String → String
  | [] => ""
  | [a] => a
  | a :: b :: rest => a ++ " " ++ joinSpace (b :: rest)

/-- Embeds `" ".join(l.split()[-2:])` (lines 433 and 435). -/
def joinLastTwo (l : String) : String :=
  joinSpace (((pySplit l).reverse.take 2).reverse)

/-- Embeds the line loop over one interface block (lines 424-436): records
the interface name from the first token of an `is up`/`is down` line, the
joined last-two tokens of a `Link ups: ` line, and breaks at the first
`Link downs: ` line. Returns (iface, last_up, last_down). -/
def flapScan : List String → Option String → Option String → Option String →
    Option String × Option String × Option String
  | [], iface, last_up, last_down => (iface, last_up, last_down)
  | l :: rest, iface, last_up, last_down =>
    if strContains l "is up" || strContains l "is down" then
      flapScan rest (some (String.mk (((pySplit l).headD "").data.map Char.toLower)))
        last_up last_down
    else if strContains l "Link ups: " then
      flapScan rest iface (some (joinLastTwo l)) last_down
    else if strContains l "Link downs: " then
      (iface, last_up, some (joinLastTwo l))
    else
      flapScan rest iface last_up last_down

/-- Embeds the last-flapped policy (lines 440-461) given the device reference
time (microseconds since epoch) and the two extracted timestamp strings.
`none` models an uncaught exception: the list comprehension
`["never" in i for i in [last_up, last_down]]` raises `TypeError` when
exactly one of the two is `None`, and `datetime.strptime` raises
`ValueError` on a malformed timestamp. -/
def lastFlapped (current : Int) (last_up last_down : Option String) :
    Option Rat :=
  match last_up, last_down with
  | none, none => some (-1)
  | some u, some d =>
      if strContains u "never" && strContains d "never" then some (-1)
      else
        match (if strContains d "never" then some 0 else strptimeFlapTs d) with
        | none => none
        | some dv =>
            match (if strContains u "never" then some 0 else strptimeFlapTs u) with
            | none => none
            | some uv =>
                let most_recent := if uv > dv then uv else dv
                some ((pyTimedeltaSeconds (current - most_recent) : Int) : Rat)
  | _, _ => none

/-- Embeds the whole per-block computation: reference-time string (from the
`date` command, stripped then strptime'd, lines 399-400), block split into
lines, scanned, and fed to the last-flapped policy. -/
def block_last_flapped (currentStr : String) (block : String) : Option Rat :=
  match strptimeCurrent (pyStripWs currentStr) with
  | none => none
  | some current =>
      let r := flapScan (pySplitlines block) none none none
      lastFlapped current r.2.1 r.2.2

/-! ## SNMP information (`get_snmp_information`, cumulus.py lines 573-637)

The community-directive scan: lines containing `readonly-community` (or
`readonly-community-v6`) contribute `(community, acl)` pairs; a repeated
community string comma-joins its ACL onto the existing entry instead of
overwriting it. The `system-contact`/`system-location`/`system-name` string
extractions are independent of the community map and are not modeled. -/

structure SnmpCommunity where
  acl : String
  mode : String
deriving Repr, DecidableEq

/-- Embeds the Python dict `snmp_values["community"]` as an insertion-ordered
association list with unique keys. -/
def lookupComm : List (String × SnmpCommunity) → String → Option SnmpCommunity
  | [], _ => none
  | (k, v) :: rest, c => if k == c then some v else lookupComm rest c

/-- Embeds dict assignment `d[k] = v`: replace in place when the key exists,
append otherwise. -/
def setComm : List (String × SnmpCommunity) → String → SnmpCommunity →
    List (String × SnmpCommunity)
  | [], k, v => [(k, v)]
  | (k', v') :: rest, k, v =>
      if k' == k then (k', v) :: rest else (k', v') :: setComm rest k v

/-- Embeds Python `x in lst` on a list of strings. -/
def pyInList (x : String) : List String → Bool
  | [] => false
  | y :: rest => y == x || pyInList x rest

/-- Accumulator of the scan: the community dict and the `community_list`
bookkeeping list (lines 578-579). -/
structure SnmpAcc where
  communities : List (String × SnmpCommunity)
  community_list : List String
deriving Repr, DecidableEq

/-- Embeds the line predicate of lines 581-584. -/
def isReadonlyLine (l : String) : Bool :=
  strContains l "readonly-community" || strContains l "readonly-community-v6"

/-- Embeds the `"any"` normalization of lines 587-588. -/
def normAcl (a : String) : String :=
  if a == "any" then "N/A" else a

/-- Embeds one iteration of the scan loop (lines 580-616) on one line.
`parse_snmp_value.strip().split()` and `parse_snmp_value.lstrip().split()`
both tokenize to `pySplit`; `none` models the IndexError on a matching line
with fewer than four tokens (or the KeyError of line 606, unreachable from
the initial accumulator). -/
def snmpStep (acc : SnmpAcc) (line : String) : Option SnmpAcc :=
  if isReadonlyLine line then
    match (pySplit line)[1]?, (pySplit line)[3]? with
    | some community_value, some acl0 =>
        let acl := normAcl acl0
        if pyInList community_value acc.community_list then
          match lookupComm acc.communities community_value with
          | none => none
          | some old =>
              some { acc with
                communities := setComm acc.communities community_value
                  { acl := old.acl ++ "," ++ acl, mode := "ro" } }
        else
          some { communities := setComm acc.communities community_value
                   { acl := acl, mode := "ro" },
                 community_list := acc.community_list ++ [community_value] }
    | _, _ => none
  else some acc

/-- Embeds the scan loop over all lines. -/
def snmpScan : SnmpAcc → List String → Option SnmpAcc
  | acc, [] => some acc
  | acc, l :: ls =>
      match snmpStep acc l with
      | none => none
      | some acc' => snmpScan acc' ls

/-- Embeds the community-map portion of `get_snmp_information` on the raw
`net show configuration snmp-server` output. -/
def get_snmp_communities (output : String) : Option SnmpAcc :=
  snmpScan { communities := [], community_list := [] } (pySplitlines output)

/-! ### Spec-side description of the merge, for the correctness statement -/

/-- Line `l` is a readonly-community directive for community `c`. -/
def lineMatches (l c : String) : Bool :=
  isReadonlyLine l &&
    (match (pySplit l)[1]? with
     | some t => t == c
     | none => false)

/-- Normalized ACL token of a directive line. -/
def lineAclTok (l : String) : String :=
  normAcl (((pySplit l)[3]?).getD "")

/-- ACL tokens contributed to community `c`, in order of appearance. -/
def aclsFor : List String → String → List String
  | [], _ => []
  | l :: ls, c =>
      if lineMatches l c then lineAclTok l :: aclsFor ls c else aclsFor ls c

/-- Comma-join of a list of tokens. -/
def commaJoin : List String → String
  | [] => ""
  | [a] => a
  | a :: b :: rest => a ++ "," ++ commaJoin (b :: rest)

/-- Number of entries of the community map with key `c`. -/
def countKey : List (String × SnmpCommunity) → String → Nat
  | [], _ => 0
  | (k, _) :: rest, c => (if k == c then 1 else 0) + countKey rest c

/-- Invariant of the scan: after processing the given lines, each community
holds exactly the comma-join of its ACL tokens in order of appearance, the
map has at most one entry per community, and `community_list` lists exactly
the communities seen. -/
def SnmpInv (processed : List String) (acc : SnmpAcc) : Prop :=
  (∀ c, lookupComm acc.communities c =
      (if aclsFor processed c = [] then none
       else some { acl := commaJoin (aclsFor processed c), mode := "ro" })) ∧
  (∀ c, countKey acc.communities c =
      (if aclsFor processed c = [] then 0 else 1)) ∧
  (∀ c, pyInList c acc.community_list = !(aclsFor processed c).isEmpty)

/-- The spec's example configuration: the same community on two
readonly-community lines with different authorized hosts. -/
def snmpExampleConfig : String :=
  "snmp-server\n   listening-address all\n   readonly-community PUB access 10.0.0.1\n   readonly-community PUB access 10.0.0.2\n   system-name cumulus-rtr-1"

/-! ## Driver state (`__init__`, cumulus.py lines 41-75)

The only mutable driver attributes written after construction are the
configuration-workflow flags `self.loaded` and `self.changed`; the parsing
methods read raw command output from the channel and neither read nor write
these flags, so each parser is embedded as a state-passing function whose
result depends only on the raw text. -/

structure DriverState where
  loaded : Bool
  changed : Bool
deriving Repr, DecidableEq

/-- `get_snmp_information` as a call on the driver: the raw output comes from
the channel; the method body contains no assignment to `self`. -/
def get_snmp_information_call (st : DriverState) (raw : String) :
    Option SnmpAcc × DriverState :=
  (get_snmp_communities raw, st)

/-- `_convert_speed` as a call on the driver (it is a closure over no state). -/
def convert_speed_call (st : DriverState) (raw : String) : Int × DriverState :=
  (_convert_speed raw, st)

/-! # Theorems -/

/-! ## Helper lemmas -/

theorem digit_beq_false {c g : Char} (hc : c.isDigit = true)
    (hg : g.isDigit = false) : (c == g) = false := by
  cases hbe : c == g
  · rfl
  · have hcg : c = g := eq_of_beq hbe
    rw [hcg, hg] at hc
    simp at hc

theorem dropWhile_digits {g : Char} (hg : g.isDigit = false) (l : List Char)
    (h : ∀ c ∈ l, c.isDigit = true) : l.dropWhile (fun a => a == g) = l := by
  cases l with
  | nil => rfl
  | cons a t =>
      simp [List.dropWhile_cons, digit_beq_false (h a (by simp)) hg]

theorem pyStripChar_digits {g : Char} (hg : g.isDigit = false) (s : String)
    (hs : s.data ≠ []) (hd : ∀ c ∈ s.data, c.isDigit = true) :
    pyStripChar (s ++ String.singleton g) g = s := by
  unfold pyStripChar
  have hdata : (s ++ String.singleton g).data = s.data ++ [g] := rfl
  rw [hdata]
  obtain ⟨a, t, hat⟩ : ∃ a t, s.data = a :: t := by
    cases hsd : s.data with
    | nil => exact absurd hsd hs
    | cons a t => exact ⟨a, t, rfl⟩
  have ha : a.isDigit = true := hd a (by rw [hat]; simp)
  have hfront : (s.data ++ [g]).dropWhile (fun x => x == g) = s.data ++ [g] := by
    rw [hat]
    simp [List.dropWhile_cons, digit_beq_false ha hg]
  rw [hfront]
  have hrev : (s.data ++ [g]).reverse = g :: s.data.reverse := by simp
  rw [hrev, List.dropWhile_cons]
  simp only [beq_self_eq_true, if_true]
  rw [dropWhile_digits hg s.data.reverse
    (by intro c hc; exact hd c (List.mem_reverse.mp hc))]
  simp

theorem pyEndsWithChar_append_self (s : String) (g : Char) :
    pyEndsWithChar (s ++ String.singleton g) g = true := by
  unfold pyEndsWithChar
  have hdata : (s ++ String.singleton g).data = s.data ++ [g] := rfl
  rw [hdata, List.getLast?_concat]
  simp

theorem pyEndsWithChar_append_ne (s : String) (g c : Char) (h : (g == c) = false) :
    pyEndsWithChar (s ++ String.singleton g) c = false := by
  unfold pyEndsWithChar
  have hdata : (s ++ String.singleton g).data = s.data ++ [g] := rfl
  rw [hdata, List.getLast?_concat]
  simpa using h

theorem pyIsDigitStr_of_digits (s : String) (hs : s.data ≠ [])
    (hd : ∀ c ∈ s.data, c.isDigit = true) : pyIsDigitStr s = true := by
  unfold pyIsDigitStr
  obtain ⟨a, t, hat⟩ : ∃ a t, s.data = a :: t := by
    cases hsd : s.data with
    | nil => exact absurd hsd hs
    | cons a t => exact ⟨a, t, rfl⟩
  rw [hat]
  simp only [List.isEmpty_cons, Bool.not_false, Bool.true_and, List.all_eq_true]
  intro c hc
  exact hd c (by rw [hat]; exact hc)

/-! ## Claim C6: speed-string conversion -/

/-- Claim C6 counterexample: the string "100MM" matches neither the shape
`<int>M` nor `<int>G`, yet `_convert_speed` returns 100 rather than the
claimed -1, because `strip("M")` removes every leading and trailing `M`. -/
theorem convert_speed_counterexample :
    specFormIntM "100MM" = false ∧ specFormIntG "100MM" = false ∧
    _convert_speed "100MM" = 100 ∧ _convert_speed "100MM" ≠ -1 := by
  refine ⟨by decide, by decide, by decide, by decide⟩

/-- Claim C6 (amended): a string of decimal digits followed by `M` converts
to that integer in megabits, digits followed by `G` converts to the integer
times 1000, and a string ending in neither `M` nor `G` yields -1; however a
string ending in `M` (resp. `G`) converts by stripping all leading and
trailing `M` (resp. `G`) characters, so forms such as "100MM" also convert
instead of yielding -1. -/
theorem convert_speed_amended (s : String) (hs : s.data ≠ [])
    (hd : ∀ c ∈ s.data, c.isDigit = true) :
    _convert_speed (s ++ "M") = (digitsToNat s : Int) ∧
    _convert_speed (s ++ "G") = (digitsToNat s : Int) * 1000 ∧
    (∀ t : String, pyEndsWithChar t 'M' = false → pyEndsWithChar t 'G' = false →
      _convert_speed t = -1) := by
  have hMs : ("M" : String) = String.singleton 'M' := rfl
  have hGs : ("G" : String) = String.singleton 'G' := rfl
  have hdig := pyIsDigitStr_of_digits s hs hd
  refine ⟨?_, ?_, ?_⟩
  · rw [_convert_speed, hMs, pyStripChar_digits (by decide) s hs hd,
      pyEndsWithChar_append_self, hdig]
    simp
  · rw [_convert_speed, hGs, pyStripChar_digits (by decide) s hs hd,
      pyEndsWithChar_append_self, pyEndsWithChar_append_ne s 'G' 'M' (by decide),
      hdig]
    simp
  · intro t htM htG
    rw [_convert_speed, htM, htG]
    simp

/-- Claim C6 witness: concrete instances of the amended statement, including
the spec's own examples. -/
theorem convert_speed_amended_witness :
    _convert_speed "100M" = 100 ∧ _convert_speed "10G" = 10000 ∧
    _convert_speed "auto" = -1 := by
  have h1 := convert_speed_amended "100" (by decide) (by decide)
  have h2 := convert_speed_amended "10" (by decide) (by decide)
  have e1 : ("100" ++ "M" : String) = "100M" := by decide
  have e2 : ("10" ++ "G" : String) = "10G" := by decide
  have v1 : (digitsToNat "100" : Int) = 100 := by decide
  have v2 : (digitsToNat "10" : Int) * 1000 = 10000 := by decide
  refine ⟨?_, ?_, h1.2.2 "auto" (by decide) (by decide)⟩
  · have := h1.1
    rw [e1, v1] at this
    exact this
  · have := h2.2.1
    rw [e2, v2] at this
    exact this

/-! ## Claim C8: ARP line parsing -/

/-- Claim C8: for every ARP output line whose whitespace tokens are
`t0 :: t1 :: rest`, the parsed entry takes the last token as interface, the
first token as IP, MAC `00:00:00:00:00:00` when the second token contains
"incomplete" and the third token otherwise, and age 0.0. -/
theorem arp_line_fields (line t0 t1 : String) (rest : List String)
    (h : pySplit line = t0 :: t1 :: rest) :
    parseArpLine line =
      (if strContains t1 "incomplete" then
        some { interface := (t0 :: t1 :: rest).getLastD "",
               mac := "00:00:00:00:00:00", ip := t0, age := 0 }
      else
        rest.head?.map (fun t2 =>
          { interface := (t0 :: t1 :: rest).getLastD "", mac := t2,
            ip := t0, age := 0 })) := by
  rw [parseArpLine, h]
  cases hinc : strContains t1 "incomplete" with
  | true => simp [arpFromTokens, hinc]
  | false =>
      cases rest with
      | nil => simp [arpFromTokens, hinc]
      | cons t2 r => simp [arpFromTokens, hinc]

/-- Claim C8 witness: the spec's example line. -/
theorem arp_line_fields_witness :
    parseArpLine "10.1.1.1  (incomplete)  eth1" =
      some { interface := "eth1", mac := "00:00:00:00:00:00",
             ip := "10.1.1.1", age := 0 } := by
  have h : pySplit "10.1.1.1  (incomplete)  eth1" =
      ["10.1.1.1", "(incomplete)", "eth1"] := by decide
  have hf := arp_line_fields _ "10.1.1.1" "(incomplete)" ["eth1"] h
  rw [hf]
  decide

/-! ## Claim C10: short ARP lines abort the whole table -/

/-- Claim C10: an `arp -n` output that ends with a trailing newline leaves an
empty final line in the body; `line.split()[1]` raises IndexError there, so
`get_arp_table` returns no table at all — in particular not the partial
table containing the valid first entry, which parses fine on its own. -/
theorem arp_trailing_newline_aborts :
    get_arp_table
      "Address HWtype HWaddress Flags Mask Iface\n10.129.2.254 ether 00:50:56:97:af:b1 C eth0\n"
      = none ∧
    parseArpLine "10.129.2.254 ether 00:50:56:97:af:b1 C eth0" =
      some { interface := "eth0", mac := "00:50:56:97:af:b1",
             ip := "10.129.2.254", age := 0 } := by
  exact ⟨by decide, by decide⟩

/-! ## Claim C1: BGP neighbor uptime -/

/-- Claim C1 evaluation: for an Established neighbor the uptime is the
millisecond timer divided by 1000 (123456 ms gives 123 s), but for a
non-Established neighbor the code stores -1 into `uptime` and then computes
`int(uptime / 1000)`, which under Python 3 true division is `int(-0.001) = 0`
— not the claimed (and clearly intended) sentinel -1. -/
theorem bgp_uptime_established_and_idle :
    bgp_neighbor_uptime "Established" (some 123456) = some 123 ∧
    bgp_neighbor_uptime "Idle" (some 123456) = some 0 ∧
    bgp_neighbor_uptime "Idle" (some 123456) ≠ some (-1) := by
  refine ⟨rfl, rfl, by decide⟩

/-! ## Claim C2: ping "Unknown host" path -/

/-- Claim C2 evaluation: any probe output containing "Unknown host" makes
`ping` return Python `None` (modeled `none`) instead of the claimed error
record, because the sole `return ping_result` statement (line 351) sits
inside the success branch. The second input shows this holds regardless of
any other content — even alongside a fully parseable statistics section. -/
theorem ping_unknown_host_returns_no_record :
    ping_parse "ping: unknownhost.example.com: Name or service not known\nUnknown host"
      = none ∧
    ping_parse "PING 10.0.0.1 (10.0.0.1) 56(84) bytes of data.\nUnknown host reported\n\n--- 10.0.0.1 ping statistics ---\n2 packets transmitted, 2 received, 0% packet loss, time 1001ms\nrtt min/avg/max/mdev = 0.045/0.053/0.062/0.011 ms"
      = none := by
  exact ⟨rfl, rfl⟩

/-! ## Claim C3: JSON first-parse retry -/

/-- Claim C3 counterexample: on a channel whose first read is a truncated
JSON document and whose re-read is complete, the `get_bgp_neighbors` summary
parse (`json.loads` with no `try/except`, lines 511-514) issues the command
once and propagates the parse failure, while the retrying pattern of
`get_facts` would have recovered — so it is not the case that every
JSON-parsing query operation re-issues the command once before failing. -/
theorem bgp_parse_no_retry_counterexample :
    json_loads (garbledChannel 0) = none ∧
    (json_loads (garbledChannel 1)).isSome = true ∧
    fetchJsonNoRetry json_loads garbledChannel =
      { value := none, commandsIssued := 1 } ∧
    (fetchJsonWithRetry json_loads garbledChannel).value.isSome = true := by
  exact ⟨rfl, rfl, rfl, rfl⟩

/-- Claim C3 (amended): when the first read fails to parse and the re-read
parses, the operations that wrap `json.loads` in `try/except ValueError`
(`get_facts`, `get_lldp_neighbors`, `get_interfaces`, `get_interfaces_ip`)
re-issue the identical command exactly once through the raw channel and
succeed, having issued two commands; `get_bgp_neighbors` (and
`get_environment`) parse with no retry, so the first parse failure
propagates after a single command issue. -/
theorem json_retry_amended {J : Type} (loads : String → Option J)
    (channel : Nat → String) (h0 : (loads (channel 0)).isNone = true)
    (h1 : (loads (channel 1)).isSome = true) :
    (fetchJsonWithRetry loads channel).value.isSome = true ∧
    (fetchJsonWithRetry loads channel).commandsIssued = 2 ∧
    (fetchJsonNoRetry loads channel).value.isNone = true ∧
    (fetchJsonNoRetry loads channel).commandsIssued = 1 := by
  cases hl : loads (channel 0) with
  | some v => rw [hl] at h0; simp at h0
  | none =>
      refine ⟨?_, ?_, ?_, rfl⟩
      · simp [fetchJsonWithRetry, hl, h1]
      · simp [fetchJsonWithRetry, hl]
      · simp [fetchJsonNoRetry, hl]

/-- Claim C3 witness: the amended statement at the concrete garbled channel
with the embedded `json.loads`. -/
theorem json_retry_amended_witness :
    (fetchJsonWithRetry json_loads garbledChannel).value.isSome = true ∧
    (fetchJsonWithRetry json_loads garbledChannel).commandsIssued = 2 ∧
    (fetchJsonNoRetry json_loads garbledChannel).value.isNone = true ∧
    (fetchJsonNoRetry json_loads garbledChannel).commandsIssued = 1 :=
  json_retry_amended json_loads garbledChannel (by rfl) (by rfl)

/-! ## Claim C4: last-flapped computation -/

/-- Claim C4 evaluation: a block whose up timestamp is 2020/01/01 00:00:00
and whose down timestamp is "never" (treated as epoch), against reference
time 2020/01/03 00:00:10, should per the claim give (reference - max(up,
down)) in whole seconds = 172810; the code computes
`float(last_flap.seconds)`, and `timedelta.seconds` drops whole days, so it
returns 10.0. -/
theorem last_flapped_drops_days :
    block_last_flapped "2020/01/03 00:00:10"
      "eth0 is up\n  Link ups:       5    2020/01/01 00:00:00.000000\n  Link downs:     3    never"
      = some 10 ∧
    (10 : Rat) ≠ 172810 := by
  exact ⟨by decide, by decide⟩

/-! ## Claim C5: admin-shutdown forces prefix counters to -1 -/

/-- Claim C5: for a neighbor whose adminShutDown flag is set, the returned
(received_prefixes, sent_prefixes, accepted_prefixes) triple is (-1, -1, -1)
no matter what counter values the underlying JSON documents report. -/
theorem bgp_shutdown_prefix_counts
    (received advertised accepted : Int) :
    bgp_route_counts true received advertised accepted = (-1, -1, -1) := rfl

/-! ## Claim C9: parsing is deterministic and state-independent -/

/-- Claim C9: the parsed result is a function of the raw output alone — it
does not depend on the driver's mutable flags, does not change them, and a
repeated call on the identical raw output yields an identical record. -/
theorem parsers_deterministic_stateless (st st' : DriverState) (raw : String) :
    (get_snmp_information_call st raw).1 = (get_snmp_information_call st' raw).1 ∧
    (get_snmp_information_call st raw).2 = st ∧
    (get_snmp_information_call (get_snmp_information_call st raw).2 raw).1
      = (get_snmp_information_call st raw).1 ∧
    (convert_speed_call st raw).1 = (convert_speed_call st' raw).1 ∧
    (convert_speed_call st raw).2 = st ∧
    (convert_speed_call (convert_speed_call st raw).2 raw).1
      = (convert_speed_call st raw).1 :=
  ⟨rfl, rfl, rfl, rfl, rfl, rfl⟩

/-! ## Claim C7: SNMP community ACL merging -/

theorem lookupComm_setComm (m : List (String × SnmpCommunity)) (k c : String)
    (v : SnmpCommunity) :
    lookupComm (setComm m k v) c = if k = c then some v else lookupComm m c := by
  induction m with
  | nil =>
      by_cases hc : k = c <;> simp [setComm, lookupComm, hc]
  | cons p rest ih =>
      obtain ⟨k', v'⟩ := p
      by_cases hk : k' = k
      · subst hk
        by_cases hc : k' = c <;> simp [setComm, lookupComm, hc]
      · by_cases hc : k' = c
        · subst hc
          have hkc : ¬ k = k' := fun h => hk h.symm
          simp [setComm, lookupComm, hk, hkc]
        · simp [setComm, lookupComm, hk, hc, ih]

theorem countKey_setComm (m : List (String × SnmpCommunity)) (k c : String)
    (v : SnmpCommunity) :
    countKey (setComm m k v) c =
      (if lookupComm m k = none ∧ k = c then countKey m c + 1 else countKey m c) := by
  induction m with
  | nil =>
      by_cases hc : k = c <;> simp [setComm, countKey, lookupComm, hc]
  | cons p rest ih =>
      obtain ⟨k', v'⟩ := p
      by_cases hk : k' = k
      · subst hk
        simp [setComm, countKey, lookupComm]
      · have hk2 : (k' == k) = false := by simp [hk]
        have hstep : setComm ((k', v') :: rest) k v = (k', v') :: setComm rest k v := by
          simp [setComm, hk2]
        have hlook : lookupComm ((k', v') :: rest) k = lookupComm rest k := by
          simp [lookupComm, hk2]
        rw [hstep, hlook]
        simp only [countKey, ih]
        by_cases hC : lookupComm rest k = none ∧ k = c
        · obtain ⟨hn, hkc⟩ := hC
          subst hkc
          simp [hn]
          omega
        · simp [hC]

theorem pyInList_append (x : String) (xs : List String) (y : String) :
    pyInList x (xs ++ [y]) = (pyInList x xs || (y == x)) := by
  induction xs with
  | nil => simp [pyInList]
  | cons z t ih => simp [pyInList, ih, Bool.or_assoc]

theorem commaJoin_append (xs : List String) (a : String) (h : xs ≠ []) :
    commaJoin (xs ++ [a]) = commaJoin xs ++ "," ++ a := by
  induction xs with
  | nil => exact absurd rfl h
  | cons x t ih =>
      cases t with
      | nil => simp [commaJoin]
      | cons y t2 =>
          have htail := ih (by simp)
          have h1 : commaJoin (x :: y :: (t2 ++ [a])) =
              x ++ "," ++ commaJoin (y :: (t2 ++ [a])) := rfl
          have h2 : commaJoin (x :: y :: t2) = x ++ "," ++ commaJoin (y :: t2) := rfl
          show commaJoin (x :: y :: (t2 ++ [a])) = commaJoin (x :: y :: t2) ++ "," ++ a
          rw [h1, h2]
          rw [show (y :: (t2 ++ [a]) : List String) = (y :: t2) ++ [a] from rfl]
          rw [htail]
          simp [String.append_assoc]

theorem aclsFor_append (xs : List String) (l c : String) :
    aclsFor (xs ++ [l]) c =
      aclsFor xs c ++ (if lineMatches l c then [lineAclTok l] else []) := by
  induction xs with
  | nil =>
      by_cases h : lineMatches l c = true <;> simp [aclsFor, h]
  | cons x t ih =>
      by_cases h : lineMatches x c = true <;> simp [aclsFor, h, ih]

theorem snmpStep_inv (processed : List String) (acc : SnmpAcc) (l : String)
    (hwf : isReadonlyLine l = true → 4 ≤ (pySplit l).length)
    (hinv : SnmpInv processed acc) :
    ∃ acc', snmpStep acc l = some acc' ∧ SnmpInv (processed ++ [l]) acc' := by
  obtain ⟨h1, h2, h3⟩ := hinv
  by_cases hro : isReadonlyLine l = true
  · have hlen := hwf hro
    have h1lt : 1 < (pySplit l).length := by omega
    have h3lt : 3 < (pySplit l).length := by omega
    have hcv1 : (pySplit l)[1]?.isSome = true := by
      rw [List.getElem?_eq_getElem h1lt]
      rfl
    obtain ⟨cv, hcv⟩ := Option.isSome_iff_exists.mp hcv1
    have hacl1 : (pySplit l)[3]?.isSome = true := by
      rw [List.getElem?_eq_getElem h3lt]
      rfl
    obtain ⟨acl0, hacl0⟩ := Option.isSome_iff_exists.mp hacl1
    have hlm : ∀ c, lineMatches l c = (cv == c) := by
      intro c
      simp [lineMatches, hro, hcv]
    have hat : lineAclTok l = normAcl acl0 := by
      simp [lineAclTok, hacl0]
    have happ : ∀ c, aclsFor (processed ++ [l]) c =
        aclsFor processed c ++ (if cv = c then [normAcl acl0] else []) := by
      intro c
      rw [aclsFor_append, hlm c, hat]
      by_cases hc : cv = c <;> simp [hc]
    by_cases hseen : pyInList cv acc.community_list = true
    · have hne : aclsFor processed cv ≠ [] := by
        intro hnil
        have hx := h3 cv
        rw [hseen, hnil] at hx
        simp at hx
      have hlook : lookupComm acc.communities cv =
          some { acl := commaJoin (aclsFor processed cv), mode := "ro" } := by
        rw [h1 cv, if_neg hne]
      refine ⟨{ communities := setComm acc.communities cv
                  { acl := commaJoin (aclsFor processed cv) ++ "," ++ normAcl acl0,
                    mode := "ro" },
                community_list := acc.community_list }, ?_, ?_, ?_, ?_⟩
      · simp [snmpStep, hro, hcv, hacl0, hseen, hlook]
      · intro c
        rw [happ c, lookupComm_setComm]
        by_cases hc : cv = c
        · subst hc
          rw [if_pos rfl, if_pos rfl, if_neg (by simp)]
          rw [commaJoin_append _ _ hne]
        · rw [if_neg hc, if_neg hc, List.append_nil]
          exact h1 c
      · intro c
        rw [happ c, countKey_setComm]
        rw [if_neg (by rw [hlook]; rintro ⟨hx, _⟩; simp at hx)]
        by_cases hc : cv = c
        · subst hc
          rw [if_pos rfl, if_neg (by simp), h2 cv, if_neg hne]
        · rw [if_neg hc, List.append_nil]
          exact h2 c
      · intro c
        rw [happ c]
        by_cases hc : cv = c
        · subst hc
          rw [if_pos rfl, hseen]
          simp
        · rw [if_neg hc, List.append_nil]
          exact h3 c
    · have hseen2 : pyInList cv acc.community_list = false := by
        simpa using hseen
      have hempty : aclsFor processed cv = [] := by
        have hx := h3 cv
        rw [hseen2] at hx
        cases hh : aclsFor processed cv with
        | nil => rfl
        | cons x t =>
            rw [hh] at hx
            simp at hx
      have hlooknone : lookupComm acc.communities cv = none := by
        rw [h1 cv, if_pos hempty]
      refine ⟨{ communities := setComm acc.communities cv
                  { acl := normAcl acl0, mode := "ro" },
                community_list := acc.community_list ++ [cv] }, ?_, ?_, ?_, ?_⟩
      · simp [snmpStep, hro, hcv, hacl0, hseen2]
      · intro c
        rw [happ c, lookupComm_setComm]
        by_cases hc : cv = c
        · subst hc
          rw [if_pos rfl, if_pos rfl, hempty, if_neg (by simp)]
          rfl
        · rw [if_neg hc, if_neg hc, List.append_nil]
          exact h1 c
      · intro c
        rw [happ c, countKey_setComm]
        by_cases hc : cv = c
        · subst hc
          rw [if_pos ⟨hlooknone, rfl⟩, if_pos rfl, hempty, if_neg (by simp),
            h2 cv, if_pos hempty]
        · rw [if_neg (by rintro ⟨_, hx⟩; exact hc hx), if_neg hc, List.append_nil]
          exact h2 c
      · intro c
        rw [happ c, pyInList_append]
        by_cases hc : cv = c
        · subst hc
          rw [if_pos rfl, hseen2]
          simp
        · have hbe : (cv == c) = false := by simp [hc]
          rw [hbe, if_neg hc, List.append_nil, Bool.or_false]
          exact h3 c
  · have hro2 : isReadonlyLine l = false := by simpa using hro
    have hnm : ∀ c, lineMatches l c = false := by
      intro c
      simp [lineMatches, hro2]
    have hacl : ∀ c, aclsFor (processed ++ [l]) c = aclsFor processed c := by
      intro c
      rw [aclsFor_append, hnm c]
      simp
    refine ⟨acc, by simp [snmpStep, hro2], ?_, ?_, ?_⟩
    · intro c
      rw [hacl c]
      exact h1 c
    · intro c
      rw [hacl c]
      exact h2 c
    · intro c
      rw [hacl c]
      exact h3 c

theorem snmpScan_inv (lines : List String) :
    ∀ (processed : List String) (acc : SnmpAcc),
      (∀ l ∈ lines, isReadonlyLine l = true → 4 ≤ (pySplit l).length) →
      SnmpInv processed acc →
      ∃ acc', snmpScan acc lines = some acc' ∧ SnmpInv (processed ++ lines) acc' := by
  induction lines with
  | nil =>
      intro processed acc _ hinv
      exact ⟨acc, rfl, by simpa using hinv⟩
  | cons l ls ih =>
      intro processed acc hwf hinv
      obtain ⟨acc1, hstep, hinv1⟩ := snmpStep_inv processed acc l (hwf l (by simp)) hinv
      obtain ⟨acc', hscan, hinv'⟩ := ih (processed ++ [l]) acc1
        (fun x hx => hwf x (by simp [hx])) hinv1
      refine ⟨acc', ?_, ?_⟩
      · simp only [snmpScan, hstep]
        exact hscan
      · have he : processed ++ [l] ++ ls = processed ++ l :: ls := by simp
        rwa [he] at hinv'

theorem snmpInv_nil : SnmpInv [] { communities := [], community_list := [] } :=
  ⟨fun _ => rfl, fun _ => rfl, fun _ => rfl⟩

/-- Claim C7: in any SNMP configuration whose readonly-community lines carry
at least the four tokens of the directive shape, every community string that
appears obtains exactly one entry in the parsed community map, and its acl
is the comma-join of the (normalized) ACL tokens of all its lines in order
of appearance — repeated lines merge instead of overwriting. -/
theorem snmp_community_merge (output c : String)
    (hwf : ∀ l ∈ pySplitlines output, isReadonlyLine l = true → 4 ≤ (pySplit l).length) :
    ∃ st, get_snmp_communities output = some st ∧
      countKey st.communities c =
        (if aclsFor (pySplitlines output) c = [] then 0 else 1) ∧
      lookupComm st.communities c =
        (if aclsFor (pySplitlines output) c = [] then none
         else some { acl := commaJoin (aclsFor (pySplitlines output) c),
                     mode := "ro" }) := by
  obtain ⟨st, hscan, hinv⟩ :=
    snmpScan_inv (pySplitlines output) [] { communities := [], community_list := [] }
      hwf snmpInv_nil
  refine ⟨st, hscan, ?_, ?_⟩
  · have hx := hinv.2.1 c
    simpa using hx
  · have hx := hinv.1 c
    simpa using hx

/-- Claim C7 witness: the spec's example — two `readonly-community PUB`
lines with hosts 10.0.0.1 and 10.0.0.2. -/
theorem snmp_community_merge_witness :
    ∃ st, get_snmp_communities snmpExampleConfig = some st ∧
      countKey st.communities "PUB" =
        (if aclsFor (pySplitlines snmpExampleConfig) "PUB" = [] then 0 else 1) ∧
      lookupComm st.communities "PUB" =
        (if aclsFor (pySplitlines snmpExampleConfig) "PUB" = [] then none
         else some { acl := commaJoin (aclsFor (pySplitlines snmpExampleConfig) "PUB"),
                     mode := "ro" }) :=
  snmp_community_merge snmpExampleConfig "PUB" (by decide)
